import Mathlib

/-!
Shallow embedding of `pymarshaler/arg_delegates.py`: the type-directed
resolution delegates (builtin scalar, datetime, enum in two variants,
list, set, tuple, dict, and user-defined composite), together with the
theorems settling the specification claims about them.

Modelling conventions:
* `RawValue` is the untyped parsed-data tree (null / bool / number /
  string / sequence / string-keyed mapping) that every delegate receives.
* Python dictionaries are modelled as association lists in insertion
  order; `setItem` is `d[k] = v` (update in place if the key is present,
  append otherwise) and `dictUpdate` is `d.update(other)`.
* The recursive dispatch function `func` threaded through the container
  and composite delegates is an explicit parameter, exactly as in the
  source; it may fail, so it returns `Except MarshalError`.
* Python exceptions are modelled with `Except MarshalError`; a raised
  error propagates through the monadic plumbing, which matches the
  source's lack of any `try`/`except`.
-/

inductive RawValue where
  | null
  | boolV (b : Bool)
  | num (n : Int)
  | str (s : String)
  | seq (xs : List RawValue)
  | dict (kvs : List (String × RawValue))

mutual
/-- Model of Python `str()` on raw parsed values, used only to build the
error-message strings that the source produces with f-strings. -/
def RawValue.pyStr : RawValue → String
  | RawValue.null => "None"
  | RawValue.boolV true => "True"
  | RawValue.boolV false => "False"
  | RawValue.num n => toString n
  | RawValue.str s => s
  | RawValue.seq xs => "[" ++ RawValue.pyStrList xs ++ "]"
  | RawValue.dict kvs => "\x7b" ++ RawValue.pyStrPairs kvs ++ "\x7d"

def RawValue.pyStrList : List RawValue → String
  | [] => ""
  | [x] => RawValue.pyStr x
  | x :: y :: xs => RawValue.pyStr x ++ ", " ++ RawValue.pyStrList (y :: xs)

def RawValue.pyStrPairs : List (String × RawValue) → String
  | [] => ""
  | [(k, v)] => k ++ ": " ++ RawValue.pyStr v
  | (k, v) :: p :: xs => k ++ ": " ++ RawValue.pyStr v ++ ", " ++ RawValue.pyStrPairs (p :: xs)
end

/-- The two error kinds of `pymarshaler.errors` that the resolution core
can raise. -/
inductive MarshalError where
  | unknownFieldError (msg : String)
  | conversionError (msg : String)
deriving DecidableEq

/-- Python dict item assignment `d[k] = v`: if the key is present its
entry is updated in place, otherwise the pair is appended. -/
def setItem {K V : Type} [DecidableEq K] (l : List (K × V)) (k : K) (v : V) : List (K × V) :=
  if l.any (fun p => p.1 = k) then l.map (fun p => if p.1 = k then (k, v) else p)
  else l ++ [(k, v)]

/-- Python `d.update(other)`: item-assign every pair of `other` into `d`
in order, so later entries overwrite earlier ones. -/
def dictUpdate {K V : Type} [DecidableEq K] (a b : List (K × V)) : List (K × V) :=
  b.foldl (fun acc kv => setItem acc kv.1 kv.2) a

/-- Python dict lookup / membership: the value stored under a key. -/
def lookupA {K V : Type} [DecidableEq K] : List (K × V) → K → Option V
  | [], _ => none
  | (k', v) :: rest, k => if k' = k then some v else lookupA rest k

/-- Message of the `UnknownFieldError` raised by
`UserDefinedArgBuilderDelegate._resolve` on an unexpected field. -/
def unknownFieldMsg (key : String) (value : RawValue) : String :=
  "Found unknown field (" ++ key ++ ": " ++ RawValue.pyStr value ++ "). " ++
    "If you would like to skip unknown fields " ++
    "create a Marshal object who can skip ignore_unknown_fields"

/-- Message of the `UnknownFieldError` raised by both enum delegates when
no member value matches the input. -/
def invalidEnumMsg (dataStr : String) (clsName : String) : String :=
  "Invalid value " ++ dataStr ++ " for enum " ++ clsName

/-! ## Enum delegates

Python enum members are modelled as name/value pairs whose underlying
value lives in an arbitrary type `α` with decidable equality (Python
compares member values with `==`/hashing). A Python `Enum` class cannot
hold two distinct member objects with equal values — a duplicate value
declares an alias of the existing member — so a well-formed class
satisfies `enumWf` below. -/

structure EnumMember (α : Type) where
  name : String
  value : α
deriving DecidableEq

structure EnumClass (α : Type) where
  clsName : String
  members : List (EnumMember α)

/-- Members with equal underlying values are the same member (Python enum
aliasing collapses duplicates onto one member object). -/
def enumWf {α : Type} (cls : EnumClass α) : Prop :=
  ∀ m₁ ∈ cls.members, ∀ m₂ ∈ cls.members, m₁.value = m₂.value → m₁ = m₂

/-- The `for` loop of `EnumArgBuilderDelegate.resolve`: first member in
declaration order whose value equals the input. -/
def enumScan {α : Type} [DecidableEq α] : List (EnumMember α) → α → Option (EnumMember α)
  | [], _ => none
  | m :: rest, data => if m.value = data then some m else enumScan rest data

/-- `EnumArgBuilderDelegate.resolve`: linear scan of `cls.__members__`,
`UnknownFieldError` when nothing matches. `toStr` models Python `str()`
on the input value, used only in the error message. -/
def EnumArgBuilderDelegate.resolve {α : Type} [DecidableEq α] (toStr : α → String)
    (cls : EnumClass α) (data : α) : Except MarshalError (EnumMember α) :=
  match enumScan cls.members data with
  | some m => Except.ok m
  | none => Except.error (MarshalError.unknownFieldError (invalidEnumMsg (toStr data) cls.clsName))

/-- The table `{v.value: v for v in members}` built once by
`CachedEnumArgBuilderDelegate.__init__` (dict comprehension: insertion
order, later duplicates overwrite). -/
def CachedEnumArgBuilderDelegate.table {α : Type} [DecidableEq α]
    (cls : EnumClass α) : List (α × EnumMember α) :=
  cls.members.foldl (fun acc m => setItem acc m.value m) []

/-- `CachedEnumArgBuilderDelegate.resolve`: table lookup,
`UnknownFieldError` when the value is not a key of the table. -/
def CachedEnumArgBuilderDelegate.resolve {α : Type} [DecidableEq α] (toStr : α → String)
    (cls : EnumClass α) (data : α) : Except MarshalError (EnumMember α) :=
  match lookupA (CachedEnumArgBuilderDelegate.table cls) data with
  | none => Except.error (MarshalError.unknownFieldError (invalidEnumMsg (toStr data) cls.clsName))
  | some m => Except.ok m

/-! ## Container delegates

Each is bound to the element type descriptor(s) extracted from
`self.cls.__args__` and to the recursive dispatch function `func`. -/

/-- `ListArgBuilderDelegate.resolve`: the comprehension
`[func(inner_type, x) for x in data]`, evaluated left to right, first
raised error propagating. -/
def ListArgBuilderDelegate.resolve {Ty V : Type} (innerType : Ty)
    (func : Ty → RawValue → Except MarshalError V) (data : List RawValue) :
    Except MarshalError (List V) :=
  data.mapM (func innerType)

/-- `SetArgBuilderDelegate.resolve`: the set comprehension
`{func(inner_type, x) for x in data}` — the deduplicated, unordered
collection of the elementwise resolutions. -/
def SetArgBuilderDelegate.resolve {Ty V : Type} [DecidableEq V] (innerType : Ty)
    (func : Ty → RawValue → Except MarshalError V) (data : List RawValue) :
    Except MarshalError (Finset V) := do
  let l ← data.mapM (func innerType)
  return l.toFinset

/-- `TupleArgBuilderDelegate.resolve`: the generator expression
`(func(inner_type, x) for x in data)` — a lazy sequence of thunks, one
per input position, each applying the single bound inner type; nothing
is evaluated at `resolve` time. -/
def TupleArgBuilderDelegate.resolve {Ty V : Type} (innerType : Ty)
    (func : Ty → RawValue → Except MarshalError V) (data : List RawValue) :
    List (Unit → Except MarshalError V) :=
  data.map (fun x _ => func innerType x)

/-- `DictArgBuilderDelegate.resolve`: the dict comprehension
`{func(key_type, k): func(value_type, v) for k, v in data.items()}` —
pairs are resolved in order and inserted with Python dict semantics, so
entries whose keys resolve equal collapse with the later value winning.
Raw mapping keys are strings (the parsed-data invariant), passed to
`func` as string raw values. -/
def DictArgBuilderDelegate.resolve {Ty V : Type} [DecidableEq V] (keyType valueType : Ty)
    (func : Ty → RawValue → Except MarshalError V) (data : List (String × RawValue)) :
    Except MarshalError (List (V × V)) :=
  data.foldlM (fun acc kv => do
    let k ← func keyType (RawValue.str kv.1)
    let v ← func valueType kv.2
    return setItem acc k v) []

/-! ## Leaf delegates (builtin scalar, datetime) -/

/-- Modelled from the spec: the consumed construction contract for
scalars together with the repository's `ConversionError` surfacing,
which live outside `arg_delegates.py` (the scalar type's single-argument
constructor is an external collaborator and `pymarshaler.errors` is not
part of this file's source): "Fails with `ConversionError` if the
underlying constructor rejects the value — propagated, not swallowed".
A constructor is a partial function `ctor`; rejection (`none`) raises
`ConversionError`. -/
def scalarCtorCall {V : Type} (ctor : RawValue → Option V) (data : RawValue) :
    Except MarshalError V :=
  match ctor data with
  | some v => Except.ok v
  | none => Except.error (MarshalError.conversionError
      ("could not convert value " ++ RawValue.pyStr data))

/-- `BuiltinArgBuilderDelegate.resolve`: `None` maps to `None`, any other
value is passed to the bound scalar type's constructor. -/
def BuiltinArgBuilderDelegate.resolve {V : Type} (ctor : RawValue → Option V)
    (data : RawValue) : Except MarshalError (Option V) :=
  match data with
  | RawValue.null => Except.ok none
  | d => Except.map some (scalarCtorCall ctor d)

/-- Modelled from the spec: the permissive date/time parser
(`dateutil.parser.parse`) consumed by the datetime delegate and the
surfacing of its rejection as `ConversionError`, both external to
`arg_delegates.py`: "Fails with `ConversionError` if `v` is not a
recognizable date/time string". `parse` is the external parser over an
abstract datetime type `D`; a non-string input or an unparseable string
is a rejection. -/
def dateParserCall {D : Type} (parse : String → Option D) (data : RawValue) :
    Except MarshalError D :=
  match data with
  | RawValue.str s =>
    match parse s with
    | some d => Except.ok d
    | none => Except.error (MarshalError.conversionError
        ("could not parse datetime from " ++ s))
  | v => Except.error (MarshalError.conversionError
      ("could not parse datetime from " ++ RawValue.pyStr v))

/-- `DateTimeArgBuilderDelegate.resolve`: `parser.parse(data)`. -/
def DateTimeArgBuilderDelegate.resolve {D : Type} (parse : String → Option D)
    (data : RawValue) : Except MarshalError D :=
  dateParserCall parse data

/-! ## User-defined composite delegate

`UserDefinedArgBuilderDelegate._resolve(cls, data)` iterates the input
mapping, resolving expected fields via `func`, raising
`UnknownFieldError` on unexpected fields when `ignore_unknown_fields` is
false, and otherwise optionally walking unexpected mapping/sequence
values for expected fields of the same class. `udGo` is the loop with
its `args` accumulator; `udWalkSeq` is the inner loop over a sequence
value's elements. -/

mutual
def udGo {Ty V : Type} (params : List (String × Ty)) (ig wk : Bool)
    (func : Ty → RawValue → Except MarshalError V) :
    List (String × V) → List (String × RawValue) → Except MarshalError (List (String × V))
  | args, [] => Except.ok args
  | args, (key, value) :: rest =>
    match lookupA params key with
    | some paramType =>
      match func paramType value with
      | Except.ok v => udGo params ig wk func (setItem args key v) rest
      | Except.error e => Except.error e
    | none =>
      if !ig then
        Except.error (MarshalError.unknownFieldError (unknownFieldMsg key value))
      else if wk then
        match value with
        | RawValue.dict kvs =>
          match udGo params ig wk func [] kvs with
          | Except.ok sub => udGo params ig wk func (dictUpdate args sub) rest
          | Except.error e => Except.error e
        | RawValue.seq xs =>
          match udWalkSeq params ig wk func args xs with
          | Except.ok args2 => udGo params ig wk func args2 rest
          | Except.error e => Except.error e
        | _ => udGo params ig wk func args rest
      else udGo params ig wk func args rest
termination_by _ data => sizeOf data

def udWalkSeq {Ty V : Type} (params : List (String × Ty)) (ig wk : Bool)
    (func : Ty → RawValue → Except MarshalError V) :
    List (String × V) → List RawValue → Except MarshalError (List (String × V))
  | args, [] => Except.ok args
  | args, x :: xs =>
    match x with
    | RawValue.dict kvs =>
      match udGo params ig wk func [] kvs with
      | Except.ok sub => udWalkSeq params ig wk func (dictUpdate args sub) xs
      | Except.error e => Except.error e
    | _ => udWalkSeq params ig wk func args xs
termination_by _ xs => sizeOf xs
end

/-- `UserDefinedArgBuilderDelegate.resolve` / `_resolve`: run the field
loop with an empty accumulator against the expected parameters `params`
(the introspected `get_init_params(cls)`), returning the accumulated
field map. -/
def UserDefinedArgBuilderDelegate.resolve {Ty V : Type} (params : List (String × Ty))
    (ig wk : Bool) (func : Ty → RawValue → Except MarshalError V)
    (data : List (String × RawValue)) : Except MarshalError (List (String × V)) :=
  udGo params ig wk func [] data

/-- Python runtime values as seen by a caller of the composite delegate:
a raw value, a dict, or a constructed instance of a named class. -/
inductive PyVal where
  | vraw (r : RawValue)
  | vdict (kvs : List (String × PyVal))
  | vinst (clsName : String) (kvs : List (String × PyVal))

/-- Whether a runtime value is a constructed instance of the named
class. -/
def PyVal.isInstanceOf : PyVal → String → Bool
  | PyVal.vinst c _, n => c == n
  | _, _ => false

/-- The composite delegate's result as a runtime value: the source's
`resolve` returns the accumulated `args` dict itself. -/
def UserDefinedArgBuilderDelegate.resolveValue {Ty : Type} (params : List (String × Ty))
    (ig wk : Bool) (func : Ty → RawValue → Except MarshalError PyVal)
    (data : List (String × RawValue)) : Except MarshalError PyVal :=
  Except.map PyVal.vdict (UserDefinedArgBuilderDelegate.resolve params ig wk func data)

/-- Follows the spec's words (comparison target for C1, step 3 of the
composite algorithm): "Construct and return the composite instance from
the accumulated field map", with the consumed construction contract
`construct(Type, Map) -> Instance` modelled as building an instance of
the bound class from the field map. -/
def compositeResolveSpec {Ty : Type} (clsName : String) (params : List (String × Ty))
    (ig wk : Bool) (func : Ty → RawValue → Except MarshalError PyVal)
    (data : List (String × RawValue)) : Except MarshalError PyVal :=
  Except.map (PyVal.vinst clsName) (UserDefinedArgBuilderDelegate.resolve params ig wk func data)

/-! ## Auxiliary definitions used by the claim statements -/

/-- First field of the input mapping (in iteration order) whose key is
not an expected constructor parameter — the field on which the composite
loop raises when `ignore_unknown_fields` is false. -/
def firstUnknown {Ty : Type} (params : List (String × Ty)) :
    List (String × RawValue) → Option (String × RawValue)
  | [] => none
  | (k, v) :: rest =>
    match lookupA params k with
    | some _ => firstUnknown params rest
    | none => some (k, v)

/-- A raw value that is neither a mapping nor a sequence (the shapes the
unknown-field walk silently drops). -/
def RawValue.isLeaf : RawValue → Bool
  | RawValue.null => true
  | RawValue.boolV _ => true
  | RawValue.num _ => true
  | RawValue.str _ => true
  | RawValue.seq _ => false
  | RawValue.dict _ => false

/-- Whether a raw value is a mapping. -/
def RawValue.isDict : RawValue → Bool
  | RawValue.dict _ => true
  | _ => false

/-- Whether a runtime value is a plain dict (field map). -/
def PyVal.isDict : PyVal → Bool
  | PyVal.vdict _ => true
  | _ => false

/-- A resolution outcome that succeeded and whose field-map keys all come
from the given key list. -/
def resolvedKeysFrom {V : Type} (r : Except MarshalError (List (String × V)))
    (keys : List String) : Prop :=
  match r with
  | Except.ok m => ∀ k, (lookupA m k).isSome → k ∈ keys
  | Except.error _ => False

/-- Last member in declaration order whose value equals the input — what
the cached enum table, built with later duplicates overwriting, stores
under that value. -/
def findLastMember {α : Type} [DecidableEq α] : List (EnumMember α) → α → Option (EnumMember α)
  | [], _ => none
  | m :: rest, data =>
    match findLastMember rest data with
    | some r => some r
    | none => if m.value = data then some m else none

/-- Concrete two-member enum used by the witness theorems. -/
def colorEnum : EnumClass Int :=
  EnumClass.mk "Color" [EnumMember.mk "RED" 1, EnumMember.mk "GREEN" 2]

/-! ## Theorems: container delegates (C7, C8, C9) -/

/-- C7: for the ordered-sequence delegate, resolving `[a, b, c]` with
element type `T` yields exactly `[resolve(T,a), resolve(T,b),
resolve(T,c)]`, length and order preserved; for the unordered-collection
delegate, it yields the deduplicated set of the same three
resolutions. -/
theorem c7_list_and_set_elementwise {Ty V : Type} [DecidableEq V] (innerType : Ty)
    (func : Ty → RawValue → Except MarshalError V) (a b c : RawValue) (ra rb rc : V)
    (ha : func innerType a = Except.ok ra) (hb : func innerType b = Except.ok rb)
    (hc : func innerType c = Except.ok rc) :
    ListArgBuilderDelegate.resolve innerType func [a, b, c] = Except.ok [ra, rb, rc] ∧
    SetArgBuilderDelegate.resolve innerType func [a, b, c] =
      Except.ok ({ra, rb, rc} : Finset V) := by
  have hmap : List.mapM (func innerType) [a, b, c] = Except.ok [ra, rb, rc] := by
    simp only [List.mapM, List.mapM.loop, ha, hb, hc]
    rfl
  constructor
  · exact hmap
  · unfold SetArgBuilderDelegate.resolve
    rw [hmap]
    simp [List.toFinset_cons, List.toFinset_nil]

/-- C7 witness: concrete instantiation of the list/set elementwise
theorem. -/
theorem c7_witness :
    ListArgBuilderDelegate.resolve () (fun _ v => Except.ok (RawValue.pyStr v))
        [RawValue.str "a", RawValue.str "b", RawValue.str "a"] = Except.ok ["a", "b", "a"] ∧
    SetArgBuilderDelegate.resolve () (fun _ v => Except.ok (RawValue.pyStr v))
        [RawValue.str "a", RawValue.str "b", RawValue.str "a"] =
      Except.ok ({"a", "b", "a"} : Finset String) :=
  c7_list_and_set_elementwise () (fun _ v => Except.ok (RawValue.pyStr v))
    (RawValue.str "a") (RawValue.str "b") (RawValue.str "a") "a" "b" "a"
    (by simp [RawValue.pyStr]) (by simp [RawValue.pyStr]) (by simp [RawValue.pyStr])

/-- C9: the fixed-tuple delegate applies its single bound inner type
uniformly to every position and returns a lazy sequence (one thunk per
input position, none evaluated at resolve time) whose elements, when
forced, equal the elementwise resolution of the input in the same
positions. -/
theorem c9_tuple_lazy_uniform {Ty V : Type} (innerType : Ty)
    (func : Ty → RawValue → Except MarshalError V) (data : List RawValue) :
    (TupleArgBuilderDelegate.resolve innerType func data).map (fun t => t ()) =
      data.map (func innerType) ∧
    (TupleArgBuilderDelegate.resolve innerType func data).length = data.length := by
  unfold TupleArgBuilderDelegate.resolve
  constructor
  · rw [List.map_map]; rfl
  · rw [List.length_map]

/-- C8: the key-value mapping delegate resolves `{k1: v1, k2: v2}` to the
mapping built by inserting `resolve(K,k1) ↦ resolve(V,v1)` then
`resolve(K,k2) ↦ resolve(V,v2)` with dict semantics; when the two keys
resolve equal the entries collapse with the later value winning, and when
they differ both pairs appear. -/
theorem c8_dict_elementwise_last_wins {Ty V : Type} [DecidableEq V] (keyType valueType : Ty)
    (func : Ty → RawValue → Except MarshalError V) (k1 k2 : String) (v1 v2 : RawValue)
    (rk1 rv1 rk2 rv2 : V)
    (hk1 : func keyType (RawValue.str k1) = Except.ok rk1)
    (hv1 : func valueType v1 = Except.ok rv1)
    (hk2 : func keyType (RawValue.str k2) = Except.ok rk2)
    (hv2 : func valueType v2 = Except.ok rv2) :
    DictArgBuilderDelegate.resolve keyType valueType func [(k1, v1), (k2, v2)] =
      Except.ok (setItem (setItem [] rk1 rv1) rk2 rv2) ∧
    (rk2 = rk1 →
      DictArgBuilderDelegate.resolve keyType valueType func [(k1, v1), (k2, v2)] =
        Except.ok [(rk1, rv2)]) ∧
    (rk1 ≠ rk2 →
      DictArgBuilderDelegate.resolve keyType valueType func [(k1, v1), (k2, v2)] =
        Except.ok [(rk1, rv1), (rk2, rv2)]) := by
  have hres : DictArgBuilderDelegate.resolve keyType valueType func [(k1, v1), (k2, v2)] =
      Except.ok (setItem (setItem [] rk1 rv1) rk2 rv2) := by
    unfold DictArgBuilderDelegate.resolve
    simp only [List.foldlM, hk1, hv1, hk2, hv2]
    rfl
  refine ⟨hres, fun heq => ?_, fun hne => ?_⟩
  · subst heq
    rw [hres]
    simp [setItem]
  · rw [hres]
    simp [setItem, hne, Ne.symm hne]

/-- C8 witness: concrete instantiation where the two input keys resolve
to the same key (numeric parse collapsing "1" and "01"), the later value
winning. -/
theorem c8_witness :
    DictArgBuilderDelegate.resolve true false
        (fun ty v => Except.ok (if ty then 1 else (match v with | RawValue.num n => n.toNat | _ => 0)))
        [("1", RawValue.num 10), ("01", RawValue.num 20)] =
      Except.ok [(1, 20)] :=
  (c8_dict_elementwise_last_wins true false
      (fun ty v => Except.ok (if ty then 1 else (match v with | RawValue.num n => n.toNat | _ => 0)))
      "1" "01" (RawValue.num 10) (RawValue.num 20) 1 10 1 20
      rfl rfl rfl rfl).2.1 rfl

/-! ## Theorems: leaf delegates (C2) -/

/-- C2: whenever the underlying scalar constructor rejects a (non-null)
raw value, and whenever the date/time parser rejects its input, the
delegate's resolve fails with a `ConversionError` — the rejection is
surfaced as `ConversionError` and not as any other error kind. -/
theorem c2_constructor_rejection_is_conversion_error :
    (∀ (V : Type) (ctor : RawValue → Option V) (data : RawValue),
      data ≠ RawValue.null → ctor data = none →
      BuiltinArgBuilderDelegate.resolve ctor data =
        Except.error (MarshalError.conversionError
          ("could not convert value " ++ RawValue.pyStr data))) ∧
    (∀ (D : Type) (parse : String → Option D) (s : String),
      parse s = none →
      DateTimeArgBuilderDelegate.resolve parse (RawValue.str s) =
        Except.error (MarshalError.conversionError
          ("could not parse datetime from " ++ s))) := by
  constructor
  · intro V ctor data hne hrej
    cases data with
    | null => exact absurd rfl hne
    | boolV b => simp [BuiltinArgBuilderDelegate.resolve, scalarCtorCall, hrej, Except.map]
    | num n => simp [BuiltinArgBuilderDelegate.resolve, scalarCtorCall, hrej, Except.map]
    | str s => simp [BuiltinArgBuilderDelegate.resolve, scalarCtorCall, hrej, Except.map]
    | seq xs => simp [BuiltinArgBuilderDelegate.resolve, scalarCtorCall, hrej, Except.map]
    | dict kvs => simp [BuiltinArgBuilderDelegate.resolve, scalarCtorCall, hrej, Except.map]
  · intro D parse s hrej
    simp [DateTimeArgBuilderDelegate.resolve, dateParserCall, hrej]

/-- C2 witness: a constructor that rejects everything turns the string
"abc" into a `ConversionError`, and a parser that recognizes no string
turns "not-a-date" into a `ConversionError`. -/
theorem c2_witness :
    BuiltinArgBuilderDelegate.resolve (fun _ => (none : Option Int)) (RawValue.str "abc") =
      Except.error (MarshalError.conversionError
        ("could not convert value " ++ RawValue.pyStr (RawValue.str "abc"))) ∧
    DateTimeArgBuilderDelegate.resolve (fun _ => (none : Option Int)) (RawValue.str "not-a-date") =
      Except.error (MarshalError.conversionError
        ("could not parse datetime from " ++ "not-a-date")) :=
  And.intro
    (c2_constructor_rejection_is_conversion_error.1 Int (fun _ => none) (RawValue.str "abc")
      (fun h => RawValue.noConfusion h) rfl)
    (c2_constructor_rejection_is_conversion_error.2 Int (fun _ => none) "not-a-date" rfl)

/-! ## Association-list lemmas (Python dict semantics) -/

lemma lookupA_eq_none_of_not_any {K V : Type} [DecidableEq K] (l : List (K × V)) (k : K)
    (h : l.any (fun p => p.1 = k) = false) : lookupA l k = none := by
  induction l with
  | nil => rfl
  | cons p rest ih =>
    obtain ⟨k₀, v₀⟩ := p
    simp only [List.any_cons, Bool.or_eq_false_iff] at h
    have hk₀ : ¬ k₀ = k := by simpa using h.1
    simp [lookupA, hk₀, ih h.2]

lemma lookupA_map_overwrite {K V : Type} [DecidableEq K] (l : List (K × V)) (k : K) (v : V)
    (hany : l.any (fun p => p.1 = k) = true) :
    lookupA (l.map (fun p => if p.1 = k then (k, v) else p)) k = some v := by
  induction l with
  | nil => simp at hany
  | cons p rest ih =>
    obtain ⟨k₀, v₀⟩ := p
    by_cases h₀ : k₀ = k
    · have hhead : (if ((k₀, v₀) : K × V).1 = k then (k, v) else (k₀, v₀)) = (k, v) := by
        simp [h₀]
      rw [List.map_cons, hhead]
      simp [lookupA]
    · have hhead : (if ((k₀, v₀) : K × V).1 = k then (k, v) else (k₀, v₀)) = (k₀, v₀) := by
        simp [h₀]
      have hrest : rest.any (fun p => p.1 = k) = true := by simpa [h₀] using hany
      rw [List.map_cons, hhead]
      simp [lookupA, h₀, ih hrest]

lemma lookupA_map_setKey {K V : Type} [DecidableEq K] (l : List (K × V)) (k k' : K) (v : V)
    (hne : k' ≠ k) :
    lookupA (l.map (fun p => if p.1 = k then (k, v) else p)) k' = lookupA l k' := by
  induction l with
  | nil => rfl
  | cons p rest ih =>
    obtain ⟨k₀, v₀⟩ := p
    by_cases h₀ : k₀ = k
    · have hhead : (if ((k₀, v₀) : K × V).1 = k then (k, v) else (k₀, v₀)) = (k, v) := by
        simp [h₀]
      rw [List.map_cons, hhead]
      subst h₀
      simp [lookupA, Ne.symm hne, ih]
    · have hhead : (if ((k₀, v₀) : K × V).1 = k then (k, v) else (k₀, v₀)) = (k₀, v₀) := by
        simp [h₀]
      rw [List.map_cons, hhead]
      simp [lookupA, ih]

lemma lookupA_append_single {K V : Type} [DecidableEq K] (l : List (K × V)) (k k' : K) (v : V) :
    lookupA (l ++ [(k, v)]) k' =
      match lookupA l k' with
      | some w => some w
      | none => if k = k' then some v else none := by
  induction l with
  | nil => simp [lookupA]
  | cons p rest ih =>
    obtain ⟨k₀, v₀⟩ := p
    by_cases h₀ : k₀ = k'
    · simp [lookupA, h₀]
    · simp [lookupA, h₀, ih]

/-- Characterization of `setItem`: lookup after `d[k] = v` gives `v` at
`k` and is unchanged elsewhere. -/
lemma lookupA_setItem {K V : Type} [DecidableEq K] (l : List (K × V)) (k k' : K) (v : V) :
    lookupA (setItem l k v) k' = if k' = k then some v else lookupA l k' := by
  unfold setItem
  by_cases hany : l.any (fun p => p.1 = k)
  · rw [if_pos hany]
    by_cases hk : k' = k
    · subst hk
      rw [if_pos rfl]
      exact lookupA_map_overwrite l k' v hany
    · rw [if_neg hk]
      exact lookupA_map_setKey l k k' v hk
  · rw [if_neg hany, lookupA_append_single]
    have hnone : lookupA l k = none :=
      lookupA_eq_none_of_not_any l k (Bool.eq_false_iff.mpr hany)
    by_cases hk : k' = k
    · subst hk
      rw [hnone]
    · have hk2 : ¬ k = k' := fun h => hk h.symm
      cases hcase : lookupA l k' with
      | some w => simp [hk]
      | none => simp [hk, hk2]

/-! ## Enum lemmas and theorems (C5, C6) -/

lemma enumScan_mem {α : Type} [DecidableEq α] (l : List (EnumMember α)) (data : α)
    (m : EnumMember α) (h : enumScan l data = some m) : m ∈ l ∧ m.value = data := by
  induction l with
  | nil => exact absurd h (by simp [enumScan])
  | cons m₀ rest ih =>
    by_cases h₀ : m₀.value = data
    · rw [enumScan, if_pos h₀] at h
      obtain rfl : m₀ = m := by injection h
      exact ⟨List.mem_cons_self m₀ rest, h₀⟩
    · rw [enumScan, if_neg h₀] at h
      obtain ⟨hm, hv⟩ := ih h
      exact ⟨List.mem_cons_of_mem m₀ hm, hv⟩

lemma enumScan_eq_none_iff {α : Type} [DecidableEq α] (l : List (EnumMember α)) (data : α) :
    enumScan l data = none ↔ ∀ m ∈ l, m.value ≠ data := by
  induction l with
  | nil => simp [enumScan]
  | cons m₀ rest ih =>
    by_cases h₀ : m₀.value = data
    · rw [enumScan, if_pos h₀]
      simp [h₀]
    · rw [enumScan, if_neg h₀]
      simp [ih, h₀]

lemma findLastMember_mem {α : Type} [DecidableEq α] (l : List (EnumMember α)) (data : α)
    (m : EnumMember α) (h : findLastMember l data = some m) : m ∈ l ∧ m.value = data := by
  induction l with
  | nil => exact absurd h (by simp [findLastMember])
  | cons m₀ rest ih =>
    rw [findLastMember] at h
    cases hf : findLastMember rest data with
    | some r =>
      rw [hf] at h
      obtain rfl : r = m := by injection h
      obtain ⟨hm, hv⟩ := ih hf
      exact ⟨List.mem_cons_of_mem m₀ hm, hv⟩
    | none =>
      rw [hf] at h
      by_cases h₀ : m₀.value = data
      · rw [if_pos h₀] at h
        obtain rfl : m₀ = m := by injection h
        exact ⟨List.mem_cons_self m₀ rest, h₀⟩
      · rw [if_neg h₀] at h
        exact absurd h (by simp)

lemma findLastMember_eq_none_iff {α : Type} [DecidableEq α] (l : List (EnumMember α)) (data : α) :
    findLastMember l data = none ↔ ∀ m ∈ l, m.value ≠ data := by
  induction l with
  | nil => simp [findLastMember]
  | cons m₀ rest ih =>
    rw [findLastMember]
    cases hf : findLastMember rest data with
    | some r =>
      obtain ⟨hm, hv⟩ := findLastMember_mem rest data r hf
      simp only []
      constructor
      · intro h; exact absurd h (by simp)
      · intro h; exact absurd hv (h r (List.mem_cons_of_mem m₀ hm))
    | none =>
      by_cases h₀ : m₀.value = data
      · simp [if_pos h₀, h₀]
      · simp [if_neg h₀, h₀, ← ih, hf]

/-- The cached table's lookup returns the last declared member with the
given value (dict-comprehension semantics: later duplicates win). -/
lemma table_lookup {α : Type} [DecidableEq α] (l : List (EnumMember α)) (acc : List (α × EnumMember α))
    (data : α) :
    lookupA (l.foldl (fun a m => setItem a m.value m) acc) data =
      match findLastMember l data with
      | some m => some m
      | none => lookupA acc data := by
  induction l generalizing acc with
  | nil => simp [findLastMember]
  | cons m₀ rest ih =>
    rw [List.foldl_cons, ih, findLastMember]
    cases hf : findLastMember rest data with
    | some r => rfl
    | none =>
      rw [lookupA_setItem]
      by_cases h₀ : m₀.value = data
      · rw [if_pos h₀, if_pos h₀.symm]
      · rw [if_neg h₀, if_neg (fun h => h₀ h.symm)]

/-- For a well-formed enum (no two distinct members share a value), the
last matching member is the first matching member. -/
lemma findLastMember_eq_enumScan {α : Type} [DecidableEq α] (l : List (EnumMember α)) (data : α)
    (hwf : ∀ m₁ ∈ l, ∀ m₂ ∈ l, m₁.value = m₂.value → m₁ = m₂) :
    findLastMember l data = enumScan l data := by
  cases hs : enumScan l data with
  | some m =>
    obtain ⟨hm, hv⟩ := enumScan_mem l data m hs
    cases hf : findLastMember l data with
    | some r =>
      obtain ⟨hr, hv'⟩ := findLastMember_mem l data r hf
      rw [hwf r hr m hm (hv'.trans hv.symm)]
    | none =>
      exact absurd hv ((findLastMember_eq_none_iff l data).mp hf m hm)
  | none =>
    exact (findLastMember_eq_none_iff l data).mpr ((enumScan_eq_none_iff l data).mp hs)

/-- For a well-formed enum the cached-table delegate and the linear-scan
delegate agree on every input. -/
lemma cached_eq_linear {α : Type} [DecidableEq α] (toStr : α → String) (cls : EnumClass α)
    (hwf : enumWf cls) (data : α) :
    CachedEnumArgBuilderDelegate.resolve toStr cls data =
      EnumArgBuilderDelegate.resolve toStr cls data := by
  unfold CachedEnumArgBuilderDelegate.resolve EnumArgBuilderDelegate.resolve
    CachedEnumArgBuilderDelegate.table
  rw [table_lookup, findLastMember_eq_enumScan cls.members data hwf]
  cases hs : enumScan cls.members data with
  | some m => rfl
  | none => rfl

/-- C5: for either enum delegate variant, an input equal to a declared
member's underlying value resolves to exactly that member, and an input
matching no member's value fails with an `UnknownFieldError` whose
message names the offending value and the enum type. -/
theorem c5_enum_member_or_unknown_field_error {α : Type} [DecidableEq α] (toStr : α → String)
    (cls : EnumClass α) (hwf : enumWf cls) :
    (∀ (data : α) (m : EnumMember α), m ∈ cls.members → m.value = data →
      EnumArgBuilderDelegate.resolve toStr cls data = Except.ok m ∧
      CachedEnumArgBuilderDelegate.resolve toStr cls data = Except.ok m) ∧
    (∀ data : α, (∀ m ∈ cls.members, m.value ≠ data) →
      EnumArgBuilderDelegate.resolve toStr cls data =
        Except.error (MarshalError.unknownFieldError (invalidEnumMsg (toStr data) cls.clsName)) ∧
      CachedEnumArgBuilderDelegate.resolve toStr cls data =
        Except.error (MarshalError.unknownFieldError (invalidEnumMsg (toStr data) cls.clsName))) := by
  constructor
  · intro data m hm hv
    have hlin : EnumArgBuilderDelegate.resolve toStr cls data = Except.ok m := by
      unfold EnumArgBuilderDelegate.resolve
      cases hs : enumScan cls.members data with
      | some m' =>
        obtain ⟨hm', hv'⟩ := enumScan_mem cls.members data m' hs
        rw [hwf m' hm' m hm (hv'.trans hv.symm)]
      | none =>
        exact absurd hv ((enumScan_eq_none_iff cls.members data).mp hs m hm)
    exact ⟨hlin, (cached_eq_linear toStr cls hwf data).trans hlin⟩
  · intro data hnone
    have hlin : EnumArgBuilderDelegate.resolve toStr cls data =
        Except.error (MarshalError.unknownFieldError (invalidEnumMsg (toStr data) cls.clsName)) := by
      unfold EnumArgBuilderDelegate.resolve
      rw [(enumScan_eq_none_iff cls.members data).mpr hnone]
    exact ⟨hlin, (cached_eq_linear toStr cls hwf data).trans hlin⟩

/-- C5 witness: on the concrete two-member enum, value 1 resolves to the
RED member under both variants, and value 3 fails with the
`UnknownFieldError` naming the value and the enum under both variants. -/
theorem c5_witness :
    (EnumArgBuilderDelegate.resolve (fun _ => "3") colorEnum 1 =
        Except.ok (EnumMember.mk "RED" 1) ∧
      CachedEnumArgBuilderDelegate.resolve (fun _ => "3") colorEnum 1 =
        Except.ok (EnumMember.mk "RED" 1)) ∧
    (EnumArgBuilderDelegate.resolve (fun _ => "3") colorEnum 3 =
        Except.error (MarshalError.unknownFieldError (invalidEnumMsg "3" "Color")) ∧
      CachedEnumArgBuilderDelegate.resolve (fun _ => "3") colorEnum 3 =
        Except.error (MarshalError.unknownFieldError (invalidEnumMsg "3" "Color"))) :=
  And.intro
    ((c5_enum_member_or_unknown_field_error (fun _ => "3") colorEnum
        (by unfold enumWf; decide)).1 1 (EnumMember.mk "RED" 1) (by decide) rfl)
    ((c5_enum_member_or_unknown_field_error (fun _ => "3") colorEnum
        (by unfold enumWf; decide)).2 3 (by decide))

/-- C6: for every well-formed enum type and every input value, valid or
not, the linear-scan delegate and the cached-table delegate produce the
same outcome — same member on success, same error on failure. -/
theorem c6_enum_delegates_equivalent {α : Type} [DecidableEq α] (toStr : α → String)
    (cls : EnumClass α) (hwf : enumWf cls) (data : α) :
    CachedEnumArgBuilderDelegate.resolve toStr cls data =
      EnumArgBuilderDelegate.resolve toStr cls data :=
  cached_eq_linear toStr cls hwf data

/-- C6 witness: the two variants agree on the concrete enum, both at a
valid value and at an invalid one. -/
theorem c6_witness :
    CachedEnumArgBuilderDelegate.resolve (fun _ => "2") colorEnum 2 =
      EnumArgBuilderDelegate.resolve (fun _ => "2") colorEnum 2 :=
  c6_enum_delegates_equivalent (fun _ => "2") colorEnum (by unfold enumWf; decide) 2

/-! ## Composite-delegate step lemmas -/

lemma udGo_nil {Ty V : Type} (params : List (String × Ty)) (ig wk : Bool)
    (func : Ty → RawValue → Except MarshalError V) (args : List (String × V)) :
    udGo params ig wk func args [] = Except.ok args := by
  simp [udGo]

lemma udGo_expected_ok {Ty V : Type} (params : List (String × Ty)) (ig wk : Bool)
    (func : Ty → RawValue → Except MarshalError V) (args : List (String × V))
    (key : String) (value : RawValue) (rest : List (String × RawValue)) (ty : Ty) (r : V)
    (h : lookupA params key = some ty) (hr : func ty value = Except.ok r) :
    udGo params ig wk func args ((key, value) :: rest) =
      udGo params ig wk func (setItem args key r) rest := by
  cases value <;> (rw [udGo, h] <;> simp [hr])

lemma udGo_expected_error {Ty V : Type} (params : List (String × Ty)) (ig wk : Bool)
    (func : Ty → RawValue → Except MarshalError V) (args : List (String × V))
    (key : String) (value : RawValue) (rest : List (String × RawValue)) (ty : Ty)
    (e : MarshalError)
    (h : lookupA params key = some ty) (hr : func ty value = Except.error e) :
    udGo params ig wk func args ((key, value) :: rest) = Except.error e := by
  cases value <;> (rw [udGo, h] <;> simp [hr])

lemma udGo_unknown_raise {Ty V : Type} (params : List (String × Ty)) (wk : Bool)
    (func : Ty → RawValue → Except MarshalError V) (args : List (String × V))
    (key : String) (value : RawValue) (rest : List (String × RawValue))
    (h : lookupA params key = none) :
    udGo params false wk func args ((key, value) :: rest) =
      Except.error (MarshalError.unknownFieldError (unknownFieldMsg key value)) := by
  cases value <;> (rw [udGo, h] <;> simp)

lemma udGo_unknown_drop {Ty V : Type} (params : List (String × Ty))
    (func : Ty → RawValue → Except MarshalError V) (args : List (String × V))
    (key : String) (value : RawValue) (rest : List (String × RawValue))
    (h : lookupA params key = none) :
    udGo params true false func args ((key, value) :: rest) =
      udGo params true false func args rest := by
  cases value <;> (rw [udGo, h] <;> simp)

lemma udGo_walk_dict {Ty V : Type} (params : List (String × Ty))
    (func : Ty → RawValue → Except MarshalError V) (args : List (String × V))
    (key : String) (kvs : List (String × RawValue)) (rest : List (String × RawValue))
    (h : lookupA params key = none) :
    udGo params true true func args ((key, RawValue.dict kvs) :: rest) =
      match udGo params true true func [] kvs with
      | Except.ok sub => udGo params true true func (dictUpdate args sub) rest
      | Except.error e => Except.error e := by
  rw [udGo, h]
  simp

lemma udGo_walk_seq {Ty V : Type} (params : List (String × Ty))
    (func : Ty → RawValue → Except MarshalError V) (args : List (String × V))
    (key : String) (xs : List RawValue) (rest : List (String × RawValue))
    (h : lookupA params key = none) :
    udGo params true true func args ((key, RawValue.seq xs) :: rest) =
      match udWalkSeq params true true func args xs with
      | Except.ok args2 => udGo params true true func args2 rest
      | Except.error e => Except.error e := by
  rw [udGo, h]
  simp

lemma udGo_walk_leaf {Ty V : Type} (params : List (String × Ty))
    (func : Ty → RawValue → Except MarshalError V) (args : List (String × V))
    (key : String) (value : RawValue) (rest : List (String × RawValue))
    (h : lookupA params key = none) (hleaf : RawValue.isLeaf value = true) :
    udGo params true true func args ((key, value) :: rest) =
      udGo params true true func args rest := by
  cases value <;> first
  | ((rw [udGo, h] <;> simp); done)
  | (simp [RawValue.isLeaf] at hleaf)

lemma udWalkSeq_nil {Ty V : Type} (params : List (String × Ty)) (ig wk : Bool)
    (func : Ty → RawValue → Except MarshalError V) (args : List (String × V)) :
    udWalkSeq params ig wk func args [] = Except.ok args := by
  simp [udWalkSeq]

lemma udWalkSeq_dict {Ty V : Type} (params : List (String × Ty)) (ig wk : Bool)
    (func : Ty → RawValue → Except MarshalError V) (args : List (String × V))
    (kvs : List (String × RawValue)) (xs : List RawValue) :
    udWalkSeq params ig wk func args (RawValue.dict kvs :: xs) =
      match udGo params ig wk func [] kvs with
      | Except.ok sub => udWalkSeq params ig wk func (dictUpdate args sub) xs
      | Except.error e => Except.error e := by
  rw [udWalkSeq]

lemma udWalkSeq_skip {Ty V : Type} (params : List (String × Ty)) (ig wk : Bool)
    (func : Ty → RawValue → Except MarshalError V) (args : List (String × V))
    (x : RawValue) (xs : List RawValue) (hx : RawValue.isDict x = false) :
    udWalkSeq params ig wk func args (x :: xs) =
      udWalkSeq params ig wk func args xs := by
  cases x <;> first
  | ((rw [udWalkSeq] <;> simp); done)
  | (simp [RawValue.isDict] at hx)

lemma dictUpdate_cons {K V : Type} [DecidableEq K] (a : List (K × V)) (k₀ : K) (v₀ : V)
    (b : List (K × V)) :
    dictUpdate a ((k₀, v₀) :: b) = dictUpdate (setItem a k₀ v₀) b := rfl

lemma lookupA_dictUpdate_not_mem {K V : Type} [DecidableEq K] :
    ∀ (b a : List (K × V)) (k : K), k ∉ b.map Prod.fst →
      lookupA (dictUpdate a b) k = lookupA a k := by
  intro b
  induction b with
  | nil => intro a k _; rfl
  | cons p b ih =>
    intro a k h
    obtain ⟨k₀, v₀⟩ := p
    simp only [List.map_cons, List.mem_cons, not_or] at h
    rw [dictUpdate_cons, ih (setItem a k₀ v₀) k h.2, lookupA_setItem, if_neg h.1]

/-- Merging walked discoveries with `args.update(sub)`: every binding of
the later map `sub` wins over the earlier accumulator. -/
lemma lookupA_dictUpdate_wins {K V : Type} [DecidableEq K] :
    ∀ (sub args : List (K × V)) (k : K) (v : V), (sub.map Prod.fst).Nodup →
      lookupA sub k = some v → lookupA (dictUpdate args sub) k = some v := by
  intro sub
  induction sub with
  | nil => intro args k v _ h; exact absurd h (by simp [lookupA])
  | cons p sub ih =>
    intro args k v hnd h
    obtain ⟨k₀, v₀⟩ := p
    simp only [List.map_cons, List.nodup_cons] at hnd
    rw [dictUpdate_cons]
    by_cases hk : k₀ = k
    · subst hk
      rw [lookupA, if_pos rfl] at h
      injection h with h'
      subst h'
      rw [lookupA_dictUpdate_not_mem sub (setItem args k₀ v₀) k₀ hnd.1, lookupA_setItem,
        if_pos rfl]
    · rw [lookupA, if_neg hk] at h
      exact ih (setItem args k₀ v₀) k v hnd.2 h

/-! ## Theorems: composite delegate (C3, C4, C10, C1) -/

lemma udGo_firstUnknown_error {Ty V : Type} (params : List (String × Ty)) (wk : Bool)
    (func : Ty → RawValue → Except MarshalError V)
    (hfunc : ∀ ty v, ∃ r, func ty v = Except.ok r) :
    ∀ (data : List (String × RawValue)) (args : List (String × V)) (k : String) (v : RawValue),
      firstUnknown params data = some (k, v) →
      udGo params false wk func args data =
        Except.error (MarshalError.unknownFieldError (unknownFieldMsg k v)) := by
  intro data
  induction data with
  | nil => intro args k v h; exact absurd h (by simp [firstUnknown])
  | cons kv rest ih =>
    intro args k v h
    obtain ⟨key, value⟩ := kv
    cases hl : lookupA params key with
    | some ty =>
      rw [firstUnknown, hl] at h
      obtain ⟨r, hr⟩ := hfunc ty value
      rw [udGo_expected_ok params false wk func args key value rest ty r hl hr]
      exact ih (setItem args key r) k v h
    | none =>
      rw [firstUnknown, hl] at h
      obtain ⟨hkey, hval⟩ := Prod.mk.inj (Option.some.inj h)
      subst hkey
      subst hval
      exact udGo_unknown_raise params wk func args key value rest hl

lemma firstUnknown_isSome {Ty : Type} (params : List (String × Ty)) :
    ∀ data : List (String × RawValue), (∃ kv ∈ data, lookupA params kv.1 = none) →
      (firstUnknown params data).isSome = true := by
  intro data
  induction data with
  | nil => intro h; obtain ⟨kv, hm, _⟩ := h; exact absurd hm (List.not_mem_nil kv)
  | cons kv rest ih =>
    intro h
    obtain ⟨key, value⟩ := kv
    cases hl : lookupA params key with
    | some ty =>
      rw [firstUnknown, hl]
      apply ih
      obtain ⟨kv', hm, hnone⟩ := h
      rcases List.mem_cons.mp hm with heq | hrest
      · subst heq; rw [hl] at hnone; exact absurd hnone (by simp)
      · exact ⟨kv', hrest, hnone⟩
    | none =>
      rw [firstUnknown, hl]
      rfl

/-- C3: with `ignore_unknown_fields` disabled, an input mapping that
contains a key outside the expected parameter set makes the composite
resolve fail with `UnknownFieldError` naming that field and its value
(the first such field in iteration order), however many valid expected
fields are present; such a field always exists when the input contains
any unexpected key. -/
theorem c3_unknown_field_error_when_not_ignoring {Ty V : Type} (params : List (String × Ty))
    (wk : Bool) (func : Ty → RawValue → Except MarshalError V)
    (hfunc : ∀ ty v, ∃ r, func ty v = Except.ok r) :
    (∀ data : List (String × RawValue), (∃ kv ∈ data, lookupA params kv.1 = none) →
      (firstUnknown params data).isSome = true) ∧
    (∀ (data : List (String × RawValue)) (k : String) (v : RawValue),
      firstUnknown params data = some (k, v) →
      (k, v) ∈ data ∧ lookupA params k = none ∧
      UserDefinedArgBuilderDelegate.resolve params false wk func data =
        Except.error (MarshalError.unknownFieldError (unknownFieldMsg k v))) := by
  refine ⟨firstUnknown_isSome params, ?_⟩
  intro data k v h
  have hmem : ∀ data : List (String × RawValue), firstUnknown params data = some (k, v) →
      (k, v) ∈ data ∧ lookupA params k = none := by
    intro data
    induction data with
    | nil => intro h'; exact absurd h' (by simp [firstUnknown])
    | cons kv rest ih =>
      intro h'
      obtain ⟨key, value⟩ := kv
      cases hl : lookupA params key with
      | some ty =>
        rw [firstUnknown, hl] at h'
        obtain ⟨hm, hn⟩ := ih h'
        exact ⟨List.mem_cons_of_mem _ hm, hn⟩
      | none =>
        rw [firstUnknown, hl] at h'
        obtain ⟨hkey, hval⟩ := Prod.mk.inj (Option.some.inj h')
        subst hkey
        subst hval
        exact ⟨List.mem_cons_self _ _, hl⟩
  obtain ⟨hm, hn⟩ := hmem data h
  exact ⟨hm, hn, udGo_firstUnknown_error params wk func hfunc data [] k v h⟩

/-- C3 witness: a mapping with one valid expected field and one unknown
field fails with the `UnknownFieldError` naming the unknown field, even
though a valid field is present. -/
theorem c3_witness :
    ("extra", RawValue.null) ∈ [("name", RawValue.str "x"), ("extra", RawValue.null)] ∧
    lookupA [("name", ())] "extra" = none ∧
    UserDefinedArgBuilderDelegate.resolve [("name", ())] false true
        (fun _ _ => Except.ok (0 : Nat)) [("name", RawValue.str "x"), ("extra", RawValue.null)] =
      Except.error (MarshalError.unknownFieldError (unknownFieldMsg "extra" RawValue.null)) :=
  (c3_unknown_field_error_when_not_ignoring [("name", ())] true
      (fun _ _ => Except.ok (0 : Nat)) (fun _ _ => Exists.intro 0 rfl)).2
    [("name", RawValue.str "x"), ("extra", RawValue.null)] "extra" RawValue.null rfl

lemma udGo_all_known {Ty V : Type} (params : List (String × Ty)) (ig wk : Bool)
    (func : Ty → RawValue → Except MarshalError V)
    (hfunc : ∀ ty v, ∃ r, func ty v = Except.ok r) :
    ∀ (data : List (String × RawValue)) (args : List (String × V)),
      (∀ kv ∈ data, (lookupA params kv.1).isSome) →
      ∃ m, udGo params ig wk func args data = Except.ok m ∧
        ∀ k, (lookupA m k).isSome → k ∈ data.map Prod.fst ∨ (lookupA args k).isSome := by
  intro data
  induction data with
  | nil =>
    intro args _
    exact ⟨args, udGo_nil params ig wk func args, fun k hk => Or.inr hk⟩
  | cons kv rest ih =>
    intro args hknown
    obtain ⟨key, value⟩ := kv
    have hk : (lookupA params key).isSome :=
      hknown (key, value) (List.mem_cons_self _ _)
    obtain ⟨ty, hty⟩ := Option.isSome_iff_exists.mp hk
    obtain ⟨r, hr⟩ := hfunc ty value
    rw [udGo_expected_ok params ig wk func args key value rest ty r hty hr]
    obtain ⟨m, hm, hkeys⟩ := ih (setItem args key r)
      (fun kv hkv => hknown kv (List.mem_cons_of_mem _ hkv))
    refine ⟨m, hm, fun k hkm => ?_⟩
    rcases hkeys k hkm with hin | hargs
    · exact Or.inl (by simp only [List.map_cons]; exact List.mem_cons_of_mem _ hin)
    · rw [lookupA_setItem] at hargs
      by_cases hkk : k = key
      · exact Or.inl (by simp [hkk])
      · rw [if_neg hkk] at hargs
        exact Or.inr hargs

/-- C10: the composite delegate never checks that the expected
constructor parameters are all satisfied — the empty input mapping
resolves to the empty field map under every combination of the two
policy flags, and whenever every input key is expected (and the
recursive resolutions succeed) resolution succeeds with a field map
whose keys all come from the input, leaving absent expected fields
silently unbound. -/
theorem c10_no_required_field_check :
    (∀ (Ty V : Type) (params : List (String × Ty)) (ig wk : Bool)
      (func : Ty → RawValue → Except MarshalError V),
      UserDefinedArgBuilderDelegate.resolve params ig wk func [] = Except.ok []) ∧
    (∀ (Ty V : Type) (params : List (String × Ty)) (ig wk : Bool)
      (func : Ty → RawValue → Except MarshalError V) (data : List (String × RawValue)),
      (∀ ty v, ∃ r, func ty v = Except.ok r) →
      (∀ kv ∈ data, (lookupA params kv.1).isSome) →
      resolvedKeysFrom (UserDefinedArgBuilderDelegate.resolve params ig wk func data)
        (data.map Prod.fst)) := by
  constructor
  · intro Ty V params ig wk func
    exact udGo_nil params ig wk func []
  · intro Ty V params ig wk func data hfunc hknown
    obtain ⟨m, hm, hkeys⟩ := udGo_all_known params ig wk func hfunc data [] hknown
    unfold UserDefinedArgBuilderDelegate.resolve
    rw [hm]
    unfold resolvedKeysFrom
    intro k hk
    rcases hkeys k hk with hin | habs
    · exact hin
    · exact absurd habs (by simp [lookupA])

/-- C10 witness: empty input resolves to the empty field map with the
strictest flags, and a partial input against a two-parameter type
succeeds with only the provided key bound. -/
theorem c10_witness :
    UserDefinedArgBuilderDelegate.resolve [("a", ()), ("b", ())]
      false false (fun _ _ => Except.ok (0 : Nat)) [] = Except.ok [] ∧
    resolvedKeysFrom
      (UserDefinedArgBuilderDelegate.resolve [("a", ()), ("b", ())]
        true true (fun _ _ => Except.ok (0 : Nat)) [("a", RawValue.null)])
      (List.map Prod.fst [("a", RawValue.null)]) :=
  And.intro
    (c10_no_required_field_check.1 Unit Nat [("a", ()), ("b", ())] false false
      (fun _ _ => Except.ok 0))
    (c10_no_required_field_check.2 Unit Nat [("a", ()), ("b", ())] true true
      (fun _ _ => Except.ok 0) [("a", RawValue.null)]
      (fun _ _ => Exists.intro 0 rfl) (by decide))

/-- C4: with `ignore_unknown_fields` and `walk_unknown_fields` both
enabled — an unknown field whose value is a mapping is recursively
resolved against the same parameter set and the discoveries are merged
into the accumulator; an unknown field whose value is a sequence has the
same search applied to its mapping-shaped elements, other elements being
skipped; an unknown value that is neither mapping nor sequence is
silently dropped; merged discoveries overwrite earlier bindings (last
write wins); and the input `{"wrapper": {"name": "x"}}` against a type
expecting only `name` resolves to `name = "x"`. -/
theorem c4_walk_unknown_fields :
    (∀ (Ty V : Type) (params : List (String × Ty)) (func : Ty → RawValue → Except MarshalError V)
      (args : List (String × V)) (key : String) (kvs rest : List (String × RawValue)),
      lookupA params key = none →
      udGo params true true func args ((key, RawValue.dict kvs) :: rest) =
        match udGo params true true func [] kvs with
        | Except.ok sub => udGo params true true func (dictUpdate args sub) rest
        | Except.error e => Except.error e) ∧
    (∀ (Ty V : Type) (params : List (String × Ty)) (func : Ty → RawValue → Except MarshalError V)
      (args : List (String × V)) (key : String) (xs : List RawValue)
      (rest : List (String × RawValue)),
      lookupA params key = none →
      udGo params true true func args ((key, RawValue.seq xs) :: rest) =
        match udWalkSeq params true true func args xs with
        | Except.ok args2 => udGo params true true func args2 rest
        | Except.error e => Except.error e) ∧
    (∀ (Ty V : Type) (params : List (String × Ty)) (func : Ty → RawValue → Except MarshalError V)
      (args : List (String × V)) (kvs : List (String × RawValue)) (xs : List RawValue),
      udWalkSeq params true true func args (RawValue.dict kvs :: xs) =
        match udGo params true true func [] kvs with
        | Except.ok sub => udWalkSeq params true true func (dictUpdate args sub) xs
        | Except.error e => Except.error e) ∧
    (∀ (Ty V : Type) (params : List (String × Ty)) (func : Ty → RawValue → Except MarshalError V)
      (args : List (String × V)) (x : RawValue) (xs : List RawValue),
      RawValue.isDict x = false →
      udWalkSeq params true true func args (x :: xs) = udWalkSeq params true true func args xs) ∧
    (∀ (Ty V : Type) (params : List (String × Ty)) (func : Ty → RawValue → Except MarshalError V)
      (args : List (String × V)) (key : String) (value : RawValue)
      (rest : List (String × RawValue)),
      lookupA params key = none → RawValue.isLeaf value = true →
      udGo params true true func args ((key, value) :: rest) =
        udGo params true true func args rest) ∧
    (∀ (V : Type) (sub args : List (String × V)) (k : String) (v : V),
      (sub.map Prod.fst).Nodup → lookupA sub k = some v →
      lookupA (dictUpdate args sub) k = some v) ∧
    UserDefinedArgBuilderDelegate.resolve [("name", ())] true true
        (fun _ v => Except.ok (RawValue.pyStr v))
        [("wrapper", RawValue.dict [("name", RawValue.str "x")])] =
      Except.ok [("name", "x")] := by
  refine ⟨?_, ?_, ?_, ?_, ?_, ?_, ?_⟩
  · intro Ty V params func args key kvs rest h
    exact udGo_walk_dict params func args key kvs rest h
  · intro Ty V params func args key xs rest h
    exact udGo_walk_seq params func args key xs rest h
  · intro Ty V params func args kvs xs
    exact udWalkSeq_dict params true true func args kvs xs
  · intro Ty V params func args x xs hx
    exact udWalkSeq_skip params true true func args x xs hx
  · intro Ty V params func args key value rest h hleaf
    exact udGo_walk_leaf params func args key value rest h hleaf
  · intro V sub args k v hnd h
    exact lookupA_dictUpdate_wins sub args k v hnd h
  · unfold UserDefinedArgBuilderDelegate.resolve
    simp [udGo, lookupA, setItem, dictUpdate, RawValue.pyStr]

/-- C4 witness: the drop rule instantiated at a concrete unknown scalar
field and the last-write-wins merge instantiated at a concrete
overlapping key. -/
theorem c4_witness :
    udGo [("name", ())] true true (fun _ _ => Except.ok (7 : Nat)) []
        [("junk", RawValue.num 3)] =
      udGo [("name", ())] true true (fun _ _ => Except.ok (7 : Nat)) [] [] ∧
    lookupA (dictUpdate [("name", 1)] [("name", 2)]) "name" = some 2 :=
  And.intro
    (c4_walk_unknown_fields.2.2.2.2.1 Unit Nat [("name", ())] (fun _ _ => Except.ok (7 : Nat)) []
      "junk" (RawValue.num 3) [] rfl rfl)
    (c4_walk_unknown_fields.2.2.2.2.2.1 Nat [("name", 2)] [("name", 1)] "name" 2
      (by decide) rfl)

/-- C1 counterexample: at the concrete input `{"name": "x"}` against a
composite type expecting `name`, the delegate's resolve returns the
accumulated field map itself — a plain dict, which is not an instance of
the composite type — so the claim that step 3 constructs and returns the
composite instance fails on the code. -/
theorem c1_counterexample :
    UserDefinedArgBuilderDelegate.resolveValue [("name", ())] false false
        (fun _ v => Except.ok (PyVal.vraw v)) [("name", RawValue.str "x")] =
      Except.ok (PyVal.vdict [("name", PyVal.vraw (RawValue.str "x"))]) ∧
    PyVal.isInstanceOf (PyVal.vdict [("name", PyVal.vraw (RawValue.str "x"))]) "Person" =
      false ∧
    compositeResolveSpec "Person" [("name", ())] false false
        (fun _ v => Except.ok (PyVal.vraw v)) [("name", RawValue.str "x")] =
      Except.ok (PyVal.vinst "Person" [("name", PyVal.vraw (RawValue.str "x"))]) := by
  refine ⟨?_, rfl, ?_⟩
  · unfold UserDefinedArgBuilderDelegate.resolveValue UserDefinedArgBuilderDelegate.resolve
    simp [udGo, lookupA, setItem, Except.map]
  · unfold compositeResolveSpec UserDefinedArgBuilderDelegate.resolve
    simp [udGo, lookupA, setItem, Except.map]

/-- C1 amended: after accumulating the resolved field map (step 2), the
composite delegate's resolve returns that field map itself — every
successful result is a plain dict and never an instance of any class;
constructing the composite instance from the map is left to the caller
outside this module. -/
theorem c1_amended_resolve_returns_field_map {Ty : Type} (params : List (String × Ty))
    (ig wk : Bool) (func : Ty → RawValue → Except MarshalError PyVal)
    (data : List (String × RawValue)) (clsName : String) (v : PyVal)
    (h : UserDefinedArgBuilderDelegate.resolveValue params ig wk func data = Except.ok v) :
    PyVal.isDict v = true ∧ PyVal.isInstanceOf v clsName = false := by
  unfold UserDefinedArgBuilderDelegate.resolveValue at h
  cases hres : UserDefinedArgBuilderDelegate.resolve params ig wk func data with
  | ok m =>
    rw [hres] at h
    obtain rfl : PyVal.vdict m = v := Except.ok.inj h
    exact ⟨rfl, rfl⟩
  | error e =>
    rw [hres] at h
    exact absurd h (by simp [Except.map])

/-- C1 amended witness: the concrete resolution result is a plain dict
and not a "Person" instance. -/
theorem c1_amended_witness :
    PyVal.isDict (PyVal.vdict [("name", PyVal.vraw (RawValue.str "x"))]) = true ∧
    PyVal.isInstanceOf (PyVal.vdict [("name", PyVal.vraw (RawValue.str "x"))]) "Person" =
      false :=
  c1_amended_resolve_returns_field_map [("name", ())] false false
    (fun _ v => Except.ok (PyVal.vraw v)) [("name", RawValue.str "x")] "Person"
    (PyVal.vdict [("name", PyVal.vraw (RawValue.str "x"))])
    (by unfold UserDefinedArgBuilderDelegate.resolveValue UserDefinedArgBuilderDelegate.resolve
        simp [udGo, lookupA, setItem, Except.map])
